import Mathlib

/-!
# Verification of `examples/c/proactor/direct.c`

A shallow embedding of the AMQP direct send/receive example
(`src/examples/c/proactor/direct.c`) and proofs about it.

The program is a single-threaded proactor event loop.  Each handler is a
pure function of the relevant fields of `app_data_t` plus the data carried
by the event; the embedding makes that state passing explicit.  C `int`
counters (`sent`, `acknowledged`, `received`) start at 0 and are only
incremented, and link credit in this example is a non-negative quantity,
so all of them are modelled as `Nat`.
-/

namespace Direct

/-! ## Definitions -/

/-- Batch size for unlimited receive: `static const int BATCH = 1000;`. -/
def BATCH : Nat := 1000

/-- Fixed receive window of `decode_message`: `#define MAX_SIZE 1024`. -/
def MAX_SIZE : Nat := 1024

/-- One message emitted by the `PN_LINK_FLOW` send loop of `handle_send`:
the `pn_dtag` delivery tag and the `"sequence"` value placed in the message
body by `encode_message` (both read from `app->sent`). -/
structure SentMsg where
  tag : Nat
  seqVal : Nat
deriving DecidableEq, Repr

/-- The `PN_LINK_FLOW` case of `handle_send`:

```c
while (pn_link_credit(sender) > 0 && app->sent < app->message_count) {
  ++app->sent;
  // Use sent counter as unique delivery tag.
  pn_delivery(sender, pn_dtag((const char *)&app->sent, sizeof(app->sent)));
  pn_bytes_t msgbuf = encode_message(app);
  pn_link_send(sender, msgbuf.start, msgbuf.size);
  pn_link_advance(sender);
}
```

Arguments: current credit (`pn_link_credit`), current `app->sent`,
`app->message_count`; result: the list of emitted messages, one element per
loop iteration (tag assignment, encode, `pn_link_send`, `pn_link_advance`).
`pn_link_advance` on a sending link consumes one unit of credit, so
`pn_link_credit` is one smaller at the next check; the loop re-reads it
before every iteration, which makes credit the structural recursion fuel.
Note `++app->sent` happens before the tag and the body are built. -/
def sendLoop : Nat → Nat → Nat → List SentMsg
  | 0, _, _ => []
  | credit + 1, sent, message_count =>
    if sent < message_count then
      ⟨sent + 1, sent + 1⟩ :: sendLoop credit (sent + 1) message_count
    else []

/-- An inbound `pn_delivery_t` as `handle_receive` and `decode_message`
observe it: `readable` is `pn_delivery_readable`, `incomplete` is
`pn_delivery_partial`, `pending` is `pn_delivery_pending`, `recvLen` the
value returned by `pn_link_recv`, and `decodeOk` whether
`pn_message_decode` returns `PN_OK` on the received bytes. -/
structure Delivery where
  readable : Bool
  incomplete : Bool
  pending : Nat
  recvLen : Int
  decodeOk : Bool
deriving DecidableEq, Repr

/-- Observable protocol actions of the receive path, in program order. -/
inductive RecvAction
  /-- The `pn_inspect`/`printf` of the decoded body (successful decode only). -/
  | printBody
  /-- The accept: `pn_delivery_update(dlv, PN_ACCEPTED)`. -/
  | accept
  /-- The call `pn_link_advance(link)`. -/
  | advance
  /-- The call `pn_delivery_settle(dlv)`. -/
  | settle
  /-- A credit grant `pn_link_flow(link, n)`. -/
  | flow (n : Nat)
  /-- The line `printf("%d messages received\n", n)`. -/
  | printCount (n : Nat)
  | closeLink
  | closeSsn
  | closeConn
deriving DecidableEq, Repr

/-- Model of `decode_message`: it reads and decodes the body only when the
pending size is below the `MAX_SIZE` window and `pn_link_recv` returned a
positive length; the body is printed only when `pn_message_decode`
succeeds.  A failed decode produces no action at all — the source has no
error branch:

```c
if (pn_delivery_pending(dlv) < MAX_SIZE) {
  len = pn_link_recv(pn_delivery_link(dlv), buffer, MAX_SIZE);
  if (len > 0) {
    pn_message_t *m = pn_message();
    if (PN_OK == pn_message_decode(m, buffer, len)) { ... printf ... }
    pn_message_free(m);
  }
}
``` -/
def decode_message (d : Delivery) : List RecvAction :=
  if d.pending < MAX_SIZE then
    if 0 < d.recvLen then
      if d.decodeOk then [.printBody] else []
    else []
  else []

/-- Credit-replenishment check of unbounded receive (`handle_receive`,
`message_count == 0` branch):

```c
if (pn_link_credit(link) < BATCH/2) {
  pn_link_flow(link, BATCH - pn_link_credit(link));
}
```

Given the link's current credit, returns the credit afterwards and the
amount granted by `pn_link_flow`, if any. -/
def maybe_replenish (credit : Nat) : Nat × Option Nat :=
  if credit < BATCH / 2 then
    (credit + (BATCH - credit), some (BATCH - credit))
  else (credit, none)

/-- Receiver-side fields of `app_data_t` together with the local endpoint
state the handler mutates.  `credit` is `pn_link_credit` of the receiving
link; `printed` collects the values printed by `"%d messages received"`. -/
structure RecvState where
  received : Nat
  credit : Nat
  closedLink : Bool
  closedSsn : Bool
  closedConn : Bool
  printed : List Nat
deriving DecidableEq, Repr

/-- The `PN_DELIVERY` case of `handle_receive` for one delivery, returning
the new state and the protocol actions issued:

```c
if (pn_delivery_readable(dlv) && !pn_delivery_partial(dlv)) {
  link = pn_delivery_link(dlv);
  decode_message(dlv);
  pn_delivery_update(dlv, PN_ACCEPTED);
  pn_link_advance(link);
  pn_delivery_settle(dlv);
  if (app->message_count == 0) {
    ... maybe_replenish ...
  } else if (++app->received >= app->message_count) {
    printf("%d messages received\n", app->received);
    pn_session_t *ssn = pn_link_session(link);
    pn_link_close(link);
    pn_session_close(ssn);
    pn_connection_close(pn_session_connection(ssn));
  }
}
```

A complete (readable, non-partial) delivery consumes one unit of the
link's credit (transfer semantics of the transport layer); on top of that
the handler decodes, accepts, advances and settles it, then either
replenishes credit (unbounded mode) or counts it and closes the endpoints
when `++received >= message_count`. -/
def handle_receive_delivery (message_count : Nat) (st : RecvState)
    (d : Delivery) : RecvState × List RecvAction :=
  if d.readable = true ∧ d.incomplete = false then
    let credit1 := st.credit - 1
    let acts0 := decode_message d ++ [.accept, .advance, .settle]
    if message_count = 0 then
      let rep := maybe_replenish credit1
      ({ st with credit := rep.1 },
        acts0 ++ (match rep.2 with | some n => [RecvAction.flow n] | none => []))
    else
      let r := st.received + 1
      if message_count ≤ r then
        ({ st with
            received := r
            credit := credit1
            closedLink := true
            closedSsn := true
            closedConn := true
            printed := st.printed ++ [r] },
          acts0 ++ [.printCount r, .closeLink, .closeSsn, .closeConn])
      else ({ st with received := r, credit := credit1 }, acts0)
  else (st, [])

/-- A receiver run over a stream of deliveries.  Once the handler has
closed the connection the transport produces no further `PN_DELIVERY`
events for it, so deliveries after `closedConn` leave the state
unchanged. -/
def receiverRun (message_count : Nat) : RecvState → List Delivery → RecvState
  | st, [] => st
  | st, d :: ds =>
    if st.closedConn then receiverRun message_count st ds
    else receiverRun message_count
      (handle_receive_delivery message_count st d).1 ds

/-- Receiver state at startup: counters zero, endpoints open, initial
credit `c` (granted on `PN_LINK_REMOTE_OPEN`). -/
def initRecvState (c : Nat) : RecvState :=
  { received := 0, credit := c, closedLink := false, closedSsn := false,
    closedConn := false, printed := [] }

/-- A complete, decodable delivery with a small body. -/
def goodDelivery : Delivery :=
  { readable := true, incomplete := false, pending := 64, recvLen := 64,
    decodeOk := true }

/-- A complete delivery whose body fails to decode. -/
def badDecodeDelivery : Delivery :=
  { readable := true, incomplete := false, pending := 64, recvLen := 64,
    decodeOk := false }

/-- Intermediate receiver state in a bounded run: `r` messages counted,
credit `c` remaining, all endpoints still open, nothing printed. -/
def midRecvState (r c : Nat) : RecvState :=
  { received := r, credit := c, closedLink := false, closedSsn := false,
    closedConn := false, printed := [] }

/-- Terminal receiver state of a bounded run that reached its limit from
`midRecvState r c`: the count printed once and all endpoints closed. -/
def doneRecvState (N c r : Nat) : RecvState :=
  { received := N, credit := c - (N - r), closedLink := true,
    closedSsn := true, closedConn := true, printed := [N] }

/-- Invariant of the bounded receiver: while open the counter is strictly
below the limit, once closed it is at most the limit. -/
def RecvInv (N : Nat) (st : RecvState) : Prop :=
  (st.closedConn = false ∧ st.received < N) ∨
    (st.closedConn = true ∧ st.received ≤ N)

/-- Remote disposition of a sender-side delivery
(`pn_delivery_remote_state`). -/
inductive Disposition
  | accepted
  | rejected
  | released
  | modified
  | unset
deriving DecidableEq, Repr

/-- Sender-side acknowledgement state: the `acknowledged` counter of
`app_data_t`, whether the connection has been closed, and the values
printed by `"%d messages sent and acknowledged"`. -/
structure AckState where
  acknowledged : Nat
  closedConn : Bool
  printed : List Nat
deriving DecidableEq, Repr

/-- Sender acknowledgement state at startup. -/
def initAckState : AckState :=
  { acknowledged := 0, closedConn := false, printed := [] }

/-- The `PN_DELIVERY` case of `handle_send`:

```c
pn_delivery_t* d = pn_event_delivery(event);
if (pn_delivery_remote_state(d) == PN_ACCEPTED) {
  if (++app->acknowledged == app->message_count) {
    printf("%d messages sent and acknowledged\n", app->acknowledged);
    pn_connection_close(pn_event_connection(event));
  }
}
```

Only an accepted remote disposition increments `acknowledged`, and only
the transition to exactly `message_count` prints and closes. -/
def handle_send_delivery (message_count : Nat) (st : AckState)
    (disp : Disposition) : AckState :=
  if disp = Disposition.accepted then
    let a := st.acknowledged + 1
    if a = message_count then
      { st with acknowledged := a, closedConn := true, printed := st.printed ++ [a] }
    else { st with acknowledged := a }
  else st

/-- A sender run over a stream of remote dispositions.  The loop keeps
handling events after the close (until `PN_TRANSPORT_CLOSED`), so later
dispositions are still processed. -/
def ackRun (message_count : Nat) (st : AckState)
    (ds : List Disposition) : AckState :=
  ds.foldl (handle_send_delivery message_count) st

/-- Result of one `pn_message_encode` attempt: success (0), `PN_OVERFLOW`,
or any other failure. -/
inductive EncStatus
  | ok
  | overflow
  | err
deriving DecidableEq, Repr

/-- Outcome of `encode_message`: an encoded message together with the
buffer size used and the number of doublings performed, or the
`exit(1)` abort on a non-overflow failure. -/
inductive EncResult
  | success (bufSize : Nat) (doublings : Nat)
  | aborted
deriving DecidableEq, Repr

/-- Records one more doubling in an encode outcome. -/
def bumpDoubling : EncResult → EncResult
  | .success s d => .success s (d + 1)
  | .aborted => .aborted

/-- The retry loop of `encode_message`:

```c
while ((status = pn_message_encode(message, mbuf.start, &mbuf.size)) == PN_OVERFLOW) {
  app->message_buffer.size *= 2;
  app->message_buffer.start = (char*)realloc(...);
  mbuf.size = app->message_buffer.size;
}
if (status != 0) { fprintf(stderr, "error encoding message: ..."); exit(1); }
```

`enc` abstracts `pn_message_encode` as a function of the buffer size for
the fixed message being encoded.  The loop doubles the buffer on every
`PN_OVERFLOW` and retries; `.err` (any other non-zero status) aborts the
process.  `fuel` bounds the number of doubling retries so the model is
total; `none` means the fuel ran out before the encoder left the overflow
state. -/
def encodeLoop (enc : Nat → EncStatus) : Nat → Nat → Option EncResult
  | 0, _ => none
  | fuel + 1, size =>
    match enc size with
    | .ok => some (.success size 0)
    | .err => some .aborted
    | .overflow => (encodeLoop enc fuel (2 * size)).map bumpDoubling

/-- First allocation of the shared encode buffer:
`static const size_t initial_size = 128;`. -/
def initial_size : Nat := 128

/-- An encoder for a message whose serialized form needs `need` bytes:
overflow whenever the buffer is smaller, success otherwise. -/
def encNeeds (need : Nat) : Nat → EncStatus :=
  fun size => if need ≤ size then .ok else .overflow

/-- A failure condition attached to an endpoint (`pn_condition_t`):
whether it is set, its name and its description. -/
structure Cond where
  isSet : Bool
  name : String
  descr : String
deriving DecidableEq, Repr

/-- Process-level outcome state touched by `check_condition`: the global
`exit_code` and whether the event's connection has been closed. -/
structure ProcState where
  exit_code : Nat
  connClosed : Bool
deriving DecidableEq, Repr

/-- The diagnostic line written by `check_condition`:
`fprintf(stderr, "%s: %s: %s\n", event type name, condition name,
condition description)`. -/
def condDiagnostic (evtName : String) (cond : Cond) : String :=
  evtName ++ ": " ++ cond.name ++ ": " ++ cond.descr ++ "\n"

/-- Model of `check_condition`:

```c
if (pn_condition_is_set(cond)) {
  fprintf(stderr, "%s: %s: %s\n", pn_event_type_name(pn_event_type(e)),
          pn_condition_get_name(cond), pn_condition_get_description(cond));
  pn_connection_close(pn_event_connection(e));
  exit_code = 1;
}
```

Returns the updated process state and the diagnostic line, if any.  When
the condition is not set, nothing happens. -/
def check_condition (evtName : String) (cond : Cond) (st : ProcState) :
    ProcState × Option String :=
  if cond.isSet then
    ({ exit_code := 1, connClosed := true }, some (condDiagnostic evtName cond))
  else (st, none)

/-- The event types dispatched by `handle`. -/
inductive EvType
  | listenerOpen
  | listenerAccept
  | connectionInit
  | connectionBound
  | connectionRemoteOpen
  | sessionRemoteOpen
  | transportClosed
  | connectionRemoteClose
  | sessionRemoteClose
  | linkRemoteClose
  | linkRemoteDetach
  | proactorTimeout
  | listenerClose
  | proactorInactive
  | linkRemoteOpen
  | linkFlow
  | delivery
deriving DecidableEq, Repr

/-- The boolean returned by `handle`: it returns `false` only in the
`PN_PROACTOR_INACTIVE` case and `true` on every other path. -/
def handleContinue : EvType → Bool
  | .proactorInactive => false
  | _ => true

/-- Observable actions of `run`: a `pn_proactor_wait`, the dispatch of one
event to `handle`, or a `pn_proactor_done` for the current batch. -/
inductive TraceAct
  | wait
  | dispatch (t : EvType)
  | batchDone
deriving DecidableEq, Repr

/-- The inner `for` loop of `run`: dispatch the batch's events in order;
if `handle` returns `false` the function returns at once, leaving the rest
of the batch undispatched.  Returns the dispatch actions and whether the
batch completed normally. -/
def dispatchBatch : List EvType → List TraceAct × Bool
  | [] => ([], true)
  | e :: es =>
    if handleContinue e then
      (TraceAct.dispatch e :: (dispatchBatch es).1, (dispatchBatch es).2)
    else ([TraceAct.dispatch e], false)

/-- The event loop of `run`, over the batches the proactor hands out:

```c
do {
  pn_event_batch_t *events = pn_proactor_wait(app->proactor);
  for (pn_event_t *e = pn_event_batch_next(events); e; e = pn_event_batch_next(events)) {
    if (!handle(app, e)) {
      return;
    }
  }
  pn_proactor_done(app->proactor, events);
} while(true);
```

Each batch is waited for, dispatched in order and acknowledged with
`pn_proactor_done` before the next wait; when a dispatch returns `false`
the function returns immediately, so the final batch is not
acknowledged. -/
def runLoop : List (List EvType) → List TraceAct
  | [] => []
  | b :: bs =>
    if (dispatchBatch b).2 then
      TraceAct.wait :: (dispatchBatch b).1 ++ [TraceAct.batchDone] ++ runLoop bs
    else TraceAct.wait :: (dispatchBatch b).1

/-! ## Theorems -/

/-- Closed form of the send loop: it emits the messages whose
(post-increment) counter values are `sent+1, sent+2, …`, exactly
`min credit (message_count - sent)` of them. -/
theorem sendLoop_eq (credit sent message_count : Nat) :
    sendLoop credit sent message_count =
      (List.range' (sent + 1) (min credit (message_count - sent))).map
        (fun n => ⟨n, n⟩) := by
  induction credit generalizing sent with
  | zero => simp [sendLoop]
  | succ c ih =>
    by_cases h : sent < message_count
    · have hmin : min (c + 1) (message_count - sent)
          = min c (message_count - (sent + 1)) + 1 := by omega
      simp [sendLoop, h, ih, hmin, List.range'_succ]
    · have hz : message_count - sent = 0 := by omega
      simp [sendLoop, h, hz]

/-- Emitted delivery tags form the consecutive range that starts just
above the initial `sent` value. -/
theorem sendLoop_map_tag (credit sent message_count : Nat) :
    (sendLoop credit sent message_count).map SentMsg.tag
      = List.range' (sent + 1) (min credit (message_count - sent)) := by
  rw [sendLoop_eq, List.map_map]
  have h : (SentMsg.tag ∘ fun n => (⟨n, n⟩ : SentMsg)) = id := rfl
  rw [h, List.map_id]

/-- C1: on `PN_LINK_FLOW` with starting credit `c` and
`sent = s < message_count`, the send loop emits exactly
`min c (message_count - s)` messages — credit is re-checked before every
send and each `pn_link_advance` consumes one unit — and each emitted
message is assigned a tag, encoded, transmitted and advanced (one
`SentMsg` per iteration, with consecutive tags). -/
theorem c1_sendLoop_emits_min (c s message_count : Nat)
    (h : s < message_count) :
    (sendLoop c s message_count).length = min c (message_count - s) ∧
      (sendLoop c s message_count).map SentMsg.tag
        = List.range' (s + 1) (min c (message_count - s)) := by
  constructor
  · rw [sendLoop_eq, List.length_map, List.length_range']
  · exact sendLoop_map_tag c s message_count

/-- Witness for C1 at credit 2, sent 0, message_count 3: exactly two
messages go out, with tags 1 and 2. -/
theorem c1_witness :
    0 < 3 ∧
      ((sendLoop 2 0 3).length = min 2 (3 - 0) ∧
        (sendLoop 2 0 3).map SentMsg.tag = List.range' (0 + 1) (min 2 (3 - 0))) :=
  ⟨by decide, c1_sendLoop_emits_min 2 0 3 (by decide)⟩

/-- C4 counterexample: `++app->sent` happens before the tag is taken and
the message encoded, so a run with `message_count = 3` and ample credit
emits tags (and body sequence values) `1, 2, 3` — not `0, 1, 2` as the
claim states. -/
theorem c4_counterexample :
    (sendLoop 3 0 3).map SentMsg.tag = [1, 2, 3] ∧
      (sendLoop 3 0 3).map SentMsg.seqVal = [1, 2, 3] ∧
      (sendLoop 3 0 3).map SentMsg.tag ≠ [0, 1, 2] := by
  refine ⟨by decide, by decide, by decide⟩

/-- C4 as amended: each outbound delivery's tag is the value of the send
counter *after* it is incremented for that send, so a run with
`message_count = 3` emits tags and body sequence values `1, 2, 3`; tags
are unique for the lifetime of the link. -/
theorem c4_tags_post_increment_unique :
    (sendLoop 3 0 3).map SentMsg.tag = [1, 2, 3] ∧
      (sendLoop 3 0 3).map SentMsg.seqVal = [1, 2, 3] ∧
      ∀ c s message_count : Nat,
        ((sendLoop c s message_count).map SentMsg.tag).Nodup := by
  refine ⟨by decide, by decide, fun c s message_count => ?_⟩
  rw [sendLoop_map_tag]
  exact List.nodup_range' _ _

/-- A closed connection absorbs the rest of the delivery stream. -/
theorem receiverRun_closed (message_count : Nat) (st : RecvState)
    (ds : List Delivery) (h : st.closedConn = true) :
    receiverRun message_count st ds = st := by
  induction ds with
  | nil => rfl
  | cons d ds ih => simp [receiverRun, h, ih]

/-- One bounded-mode step on a complete decodable delivery, in closed
form. -/
theorem step_good_bounded (N : Nat) (hN : N ≠ 0) (st : RecvState) :
    (handle_receive_delivery N st goodDelivery).1 =
      if N ≤ st.received + 1 then
        { st with
            received := st.received + 1
            credit := st.credit - 1
            closedLink := true
            closedSsn := true
            closedConn := true
            printed := st.printed ++ [st.received + 1] }
      else { st with received := st.received + 1, credit := st.credit - 1 } := by
  simp only [handle_receive_delivery, goodDelivery, hN]
  simp
  split <;> rfl

/-- Closed form of a bounded receiver run over `k` complete decodable
deliveries: each one bumps `received` and consumes a credit until the
`message_count`-th closes everything. -/
theorem receiverRun_replicate (N : Nat) (hN : 0 < N) (k r c : Nat)
    (hr : r < N) :
    receiverRun N (midRecvState r c) (List.replicate k goodDelivery)
      = if r + k < N then midRecvState (r + k) (c - k)
        else doneRecvState N c r := by
  induction k generalizing r c with
  | zero =>
    have h0 : r + 0 < N := by omega
    rw [if_pos h0]
    simp [List.replicate, receiverRun, midRecvState]
  | succ k ih =>
    rw [List.replicate_succ]
    have hNne : N ≠ 0 := by omega
    have hop : (midRecvState r c).closedConn = false := rfl
    rw [receiverRun, hop]
    simp only [Bool.false_eq_true, if_false]
    rw [step_good_bounded N hNne]
    by_cases hclose : N ≤ (midRecvState r c).received + 1
    · rw [if_pos hclose]
      have hr1 : r + 1 = N := by
        simp [midRecvState] at hclose
        omega
      rw [receiverRun_closed _ _ _ rfl]
      have hfalse : ¬ (r + (k + 1) < N) := by omega
      rw [if_neg hfalse]
      simp only [doneRecvState, midRecvState]
      have e1 : c - (N - r) = c - 1 := by omega
      simp [midRecvState, e1, ← hr1]
    · rw [if_neg hclose]
      have hr1 : r + 1 < N := by
        simp [midRecvState] at hclose
        omega
      have hmid : ({ midRecvState r c with
          received := (midRecvState r c).received + 1
          credit := (midRecvState r c).credit - 1 })
          = midRecvState (r + 1) (c - 1) := rfl
      rw [hmid, ih (r + 1) (c - 1) hr1]
      by_cases hk : r + 1 + k < N
      · rw [if_pos hk, if_pos (by omega : r + (k + 1) < N)]
        have e1 : r + 1 + k = r + (k + 1) := by omega
        have e2 : c - 1 - k = c - (k + 1) := by omega
        rw [e1, e2]
      · rw [if_neg hk, if_neg (by omega : ¬ (r + (k + 1) < N))]
        simp only [doneRecvState]
        have e1 : c - 1 - (N - (r + 1)) = c - (N - r) := by omega
        rw [e1]

/-- One delivery step preserves the bounded-mode invariant. -/
theorem step_preserves_inv (N : Nat) (st : RecvState)
    (d : Delivery) (h : st.closedConn = false ∧ st.received < N) :
    RecvInv N (handle_receive_delivery N st d).1 := by
  obtain ⟨hc, hr⟩ := h
  unfold handle_receive_delivery RecvInv
  dsimp only
  split
  · split
    · left
      simpa [hc] using hr
    · split
      · right
        simp
        omega
      · left
        simp [hc]
        omega
  · left
    exact ⟨hc, hr⟩

/-- A bounded receiver run preserves the invariant. -/
theorem receiverRun_inv (N : Nat) (st : RecvState)
    (ds : List Delivery) (h : RecvInv N st) :
    RecvInv N (receiverRun N st ds) := by
  induction ds generalizing st with
  | nil => exact h
  | cons d ds ih =>
    rw [receiverRun]
    split
    · exact ih st h
    · rcases h with ⟨hc, hr⟩ | ⟨hc, _⟩
      · exact ih _ (step_preserves_inv N st d ⟨hc, hr⟩)
      · simp_all

/-- The received counter never exceeds the limit in a bounded run. -/
theorem receiverRun_received_le (N : Nat) (hN : 0 < N) (c : Nat)
    (ds : List Delivery) :
    (receiverRun N (initRecvState c) ds).received ≤ N := by
  have h := receiverRun_inv N (initRecvState c) ds (Or.inl ⟨rfl, hN⟩)
  rcases h with ⟨_, h⟩ | ⟨_, h⟩
  · exact h.le
  · exact h

/-- A complete delivery is always accepted, advanced and settled, in that
order, right after the decode attempt. -/
theorem step_accepts (message_count : Nat) (st : RecvState) (d : Delivery)
    (h1 : d.readable = true) (h2 : d.incomplete = false) :
    ∃ rest, (handle_receive_delivery message_count st d).2
      = decode_message d
        ++ [RecvAction.accept, RecvAction.advance, RecvAction.settle] ++ rest := by
  unfold handle_receive_delivery
  rw [if_pos ⟨h1, h2⟩]
  dsimp only
  split
  · rcases hrep : (maybe_replenish (st.credit - 1)).2 with _ | n
    · exact ⟨[], by simp [hrep]⟩
    · exact ⟨[RecvAction.flow n], by simp [hrep]⟩
  · split
    · exact ⟨[RecvAction.printCount (st.received + 1), RecvAction.closeLink,
        RecvAction.closeSsn, RecvAction.closeConn], by simp⟩
    · exact ⟨[], by simp⟩

/-- A delivery that is not yet complete is ignored entirely. -/
theorem step_skips_incomplete (message_count : Nat) (st : RecvState)
    (d : Delivery) (h : ¬ (d.readable = true ∧ d.incomplete = false)) :
    handle_receive_delivery message_count st d = (st, []) := by
  unfold handle_receive_delivery
  rw [if_neg h]

/-- C2: for every `N > 0`, a bounded receiver run never lets `received`
exceed `N`; over `k` complete deliveries it counts `min k N`, closes link,
session and connection exactly when the `N`-th arrives, and prints
`"N messages received"` exactly once, for the `N`-th delivery; each
complete (readable, non-partial) delivery is accepted, advanced and
settled, and an incomplete one is skipped. -/
theorem c2_bounded_receiver (N k c : Nat) (hN : 0 < N) :
    (receiverRun N (initRecvState c) (List.replicate k goodDelivery)).received = min k N ∧
    ((receiverRun N (initRecvState c) (List.replicate k goodDelivery)).closedConn
      = decide (N ≤ k)) ∧
    ((receiverRun N (initRecvState c) (List.replicate k goodDelivery)).closedLink
      = decide (N ≤ k)) ∧
    ((receiverRun N (initRecvState c) (List.replicate k goodDelivery)).closedSsn
      = decide (N ≤ k)) ∧
    ((receiverRun N (initRecvState c) (List.replicate k goodDelivery)).printed
      = if N ≤ k then [N] else []) ∧
    (∀ ds : List Delivery, (receiverRun N (initRecvState c) ds).received ≤ N) ∧
    (∀ (st : RecvState) (d : Delivery), d.readable = true → d.incomplete = false →
      ∃ rest, (handle_receive_delivery N st d).2
        = decode_message d
          ++ [RecvAction.accept, RecvAction.advance, RecvAction.settle] ++ rest) ∧
    (∀ (st : RecvState) (d : Delivery), ¬ (d.readable = true ∧ d.incomplete = false) →
      handle_receive_delivery N st d = (st, [])) := by
  have hinit : initRecvState c = midRecvState 0 c := rfl
  have hrun : receiverRun N (initRecvState c) (List.replicate k goodDelivery)
      = if 0 + k < N then midRecvState (0 + k) (c - k) else doneRecvState N c 0 := by
    rw [hinit]
    exact receiverRun_replicate N hN k 0 c hN
  refine ⟨?_, ?_, ?_, ?_, ?_, receiverRun_received_le N hN c,
    step_accepts N, step_skips_incomplete N⟩ <;> rw [hrun] <;> by_cases hk : N ≤ k
  · rw [if_neg (by omega)]
    simp only [doneRecvState]
    omega
  · rw [if_pos (by omega)]
    simp only [midRecvState]
    omega
  · rw [if_neg (by omega)]
    simp [doneRecvState, hk]
  · rw [if_pos (by omega)]
    simp [midRecvState, hk]
  · rw [if_neg (by omega)]
    simp [doneRecvState, hk]
  · rw [if_pos (by omega)]
    simp [midRecvState, hk]
  · rw [if_neg (by omega)]
    simp [doneRecvState, hk]
  · rw [if_pos (by omega)]
    simp [midRecvState, hk]
  · rw [if_neg (by omega)]
    simp [doneRecvState, hk]
  · rw [if_pos (by omega)]
    simp [midRecvState, hk]

/-- Witness for C2 at `N = 5`, five deliveries: five received, the line
`"5 messages received"` printed, the connection closed. -/
theorem c2_witness :
    0 < 5 ∧
    (receiverRun 5 (initRecvState 1000) (List.replicate 5 goodDelivery)).received
      = min 5 5 ∧
    (receiverRun 5 (initRecvState 1000) (List.replicate 5 goodDelivery)).printed
      = (if 5 ≤ 5 then [5] else []) ∧
    (receiverRun 5 (initRecvState 1000) (List.replicate 5 goodDelivery)).closedConn
      = decide (5 ≤ 5) :=
  ⟨by decide, (c2_bounded_receiver 5 5 1000 (by decide)).1,
    (c2_bounded_receiver 5 5 1000 (by decide)).2.2.2.2.1,
    (c2_bounded_receiver 5 5 1000 (by decide)).2.1⟩

/-- Closed form of the sender acknowledgement run from an arbitrary
state. -/
theorem ackRun_eq (message_count : Nat) (ds : List Disposition)
    (a : Nat) (cf : Bool) (p : List Nat) :
    ackRun message_count ⟨a, cf, p⟩ ds =
      ⟨a + ds.count Disposition.accepted,
        cf || decide (a < message_count ∧
          message_count ≤ a + ds.count Disposition.accepted),
        p ++ (if a < message_count ∧
          message_count ≤ a + ds.count Disposition.accepted
          then [message_count] else [])⟩ := by
  induction ds generalizing a cf p with
  | nil =>
    have h0 : ¬ (a < message_count ∧
        message_count ≤ a + ([] : List Disposition).count Disposition.accepted) := by
      simp
    rw [if_neg h0, decide_eq_false h0]
    simp [ackRun]
  | cons d ds ih =>
    rw [ackRun, List.foldl_cons, ← ackRun]
    by_cases hd : d = Disposition.accepted
    · subst hd
      have hcnt : (Disposition.accepted :: ds).count Disposition.accepted
          = ds.count Disposition.accepted + 1 := by
        simp [List.count_cons]
      rw [hcnt]
      by_cases hm : a + 1 = message_count
      · have hstep : handle_send_delivery message_count ⟨a, cf, p⟩ Disposition.accepted
            = ⟨a + 1, true, p ++ [message_count]⟩ := by
          simp [handle_send_delivery, hm]
        rw [hstep, ih]
        have h1 : ¬ (a + 1 < message_count ∧
            message_count ≤ a + 1 + ds.count Disposition.accepted) := by omega
        have h2 : a < message_count ∧
            message_count ≤ a + (ds.count Disposition.accepted + 1) := by omega
        rw [if_neg h1, decide_eq_false h1, if_pos h2, decide_eq_true h2]
        simp only [Bool.or_false, Bool.or_true, List.append_nil, AckState.mk.injEq,
          and_true, true_and]
        omega
      · have hstep : handle_send_delivery message_count ⟨a, cf, p⟩ Disposition.accepted
            = ⟨a + 1, cf, p⟩ := by
          simp [handle_send_delivery, hm]
        rw [hstep, ih]
        have hiff : (a + 1 < message_count ∧
              message_count ≤ a + 1 + ds.count Disposition.accepted)
            ↔ (a < message_count ∧
              message_count ≤ a + (ds.count Disposition.accepted + 1)) := by
          omega
        simp only [hiff, AckState.mk.injEq, and_true, true_and]
        omega
    · have hstep : handle_send_delivery message_count ⟨a, cf, p⟩ d = ⟨a, cf, p⟩ := by
        simp [handle_send_delivery, hd]
      have hcnt : (d :: ds).count Disposition.accepted
          = ds.count Disposition.accepted := by
        simp [List.count_cons, hd]
      rw [hstep, ih, hcnt]

/-- C3: the acknowledged counter counts exactly the accepted remote
dispositions (a non-accepted disposition leaves the state unchanged), the
connection is closed exactly when the count reaches `message_count` — and,
the test being `==`, at most once — with `"N messages sent and
acknowledged"` printed exactly once at that moment; a `PN_DELIVERY` event
lets the loop continue (only `PN_PROACTOR_INACTIVE` stops it). -/
theorem c3_ack_close_once (message_count : Nat) (hmc : 0 < message_count)
    (ds : List Disposition) :
    (ackRun message_count initAckState ds).acknowledged
      = ds.count Disposition.accepted ∧
    ((ackRun message_count initAckState ds).closedConn
      = decide (message_count ≤ ds.count Disposition.accepted)) ∧
    ((ackRun message_count initAckState ds).printed
      = if message_count ≤ ds.count Disposition.accepted
        then [message_count] else []) ∧
    (∀ (st : AckState) (d : Disposition), d ≠ Disposition.accepted →
      handle_send_delivery message_count st d = st) ∧
    handleContinue EvType.delivery = true := by
  have h0 : initAckState = (⟨0, false, []⟩ : AckState) := rfl
  have h := ackRun_eq message_count ds 0 false []
  have hiff : (0 < message_count ∧
      message_count ≤ 0 + ds.count Disposition.accepted)
      ↔ (message_count ≤ ds.count Disposition.accepted) := by omega
  rw [h0, h]
  refine ⟨by simp, ?_, ?_,
    fun st d hd => by simp [handle_send_delivery, hd], rfl⟩
  · simp only [hiff]
    simp
  · simp only [hiff]
    simp

/-- Witness for C3 at `message_count = 3` with three accepted
dispositions: three acknowledged, the completion line printed. -/
theorem c3_witness :
    0 < 3 ∧
    (ackRun 3 initAckState
        [Disposition.accepted, Disposition.accepted, Disposition.accepted]).acknowledged
      = [Disposition.accepted, Disposition.accepted,
          Disposition.accepted].count Disposition.accepted ∧
    (ackRun 3 initAckState
        [Disposition.accepted, Disposition.accepted, Disposition.accepted]).printed
      = (if 3 ≤ [Disposition.accepted, Disposition.accepted,
          Disposition.accepted].count Disposition.accepted then [3] else []) :=
  ⟨by decide,
    (c3_ack_close_once 3 (by decide) _).1,
    (c3_ack_close_once 3 (by decide) _).2.2.1⟩

/-- C5: in unbounded mode the handler checks the link's credit after every
complete delivery; exactly when it is below `BATCH/2 = 500` it grants
`BATCH - credit`, restoring credit to `BATCH = 1000`, and otherwise it
grants nothing; the handler's new credit is exactly `maybe_replenish` of
the post-delivery credit. -/
theorem c5_replenish_hysteresis (credit : Nat) :
    ((maybe_replenish credit).1
      = if credit < BATCH / 2 then BATCH else credit) ∧
    ((maybe_replenish credit).2
      = if credit < BATCH / 2 then some (BATCH - credit) else none) ∧
    BATCH / 2 = 500 ∧ BATCH = 1000 ∧
    (∀ (st : RecvState) (d : Delivery), d.readable = true → d.incomplete = false →
      (handle_receive_delivery 0 st d).1.credit
        = (maybe_replenish (st.credit - 1)).1) := by
  refine ⟨?_, ?_, rfl, rfl, fun st d h1 h2 => ?_⟩
  · unfold maybe_replenish
    split
    · next h =>
      simp only [BATCH] at h ⊢
      omega
    · rfl
  · unfold maybe_replenish
    split
    · rfl
    · rfl
  · unfold handle_receive_delivery
    rw [if_pos ⟨h1, h2⟩]
    dsimp only
    rw [if_pos rfl]

/-- Witness for C5: credit 100 is restored to 1000, credit 700 gets no
grant, and the unbounded handler's credit agrees with `maybe_replenish`. -/
theorem c5_witness :
    goodDelivery.readable = true ∧ goodDelivery.incomplete = false ∧
    (maybe_replenish 100).1 = (if 100 < BATCH / 2 then BATCH else 100) ∧
    (maybe_replenish 700).2
      = (if 700 < BATCH / 2 then some (BATCH - 700) else none) ∧
    (handle_receive_delivery 0 (initRecvState 100) goodDelivery).1.credit
      = (maybe_replenish ((initRecvState 100).credit - 1)).1 :=
  ⟨rfl, rfl, (c5_replenish_hysteresis 100).1, (c5_replenish_hysteresis 700).2.1,
    (c5_replenish_hysteresis 0).2.2.2.2 (initRecvState 100) goodDelivery rfl rfl⟩

/-- C6: the encode buffer starts at 128 bytes, a message needing 300 bytes
succeeds after exactly two doublings (128 to 256 to 512), every overflow
doubles the buffer and retries, success keeps the current buffer, and any
non-overflow failure aborts the process. -/
theorem c6_encode_growth :
    encodeLoop (encNeeds 300) 8 initial_size
      = some (EncResult.success 512 2) ∧
    (∀ (enc : Nat → EncStatus) (fuel size : Nat), enc size = EncStatus.err →
      encodeLoop enc (fuel + 1) size = some EncResult.aborted) ∧
    (∀ (enc : Nat → EncStatus) (fuel size : Nat), enc size = EncStatus.overflow →
      encodeLoop enc (fuel + 1) size
        = (encodeLoop enc fuel (2 * size)).map bumpDoubling) ∧
    (∀ (enc : Nat → EncStatus) (fuel size : Nat), enc size = EncStatus.ok →
      encodeLoop enc (fuel + 1) size = some (EncResult.success size 0)) := by
  refine ⟨by decide, fun enc fuel size h => ?_, fun enc fuel size h => ?_,
    fun enc fuel size h => ?_⟩
  · rw [encodeLoop, h]
  · rw [encodeLoop, h]
  · rw [encodeLoop, h]

/-- Witness for C6: an encoder that fails outright aborts, and the
300-byte message overflows the fresh 128-byte buffer, forcing a
doubling. -/
theorem c6_witness :
    (fun _ : Nat => EncStatus.err) 128 = EncStatus.err ∧
    encodeLoop (fun _ : Nat => EncStatus.err) 1 128 = some EncResult.aborted ∧
    encNeeds 300 initial_size = EncStatus.overflow ∧
    encodeLoop (encNeeds 300) 9 initial_size
      = (encodeLoop (encNeeds 300) 8 (2 * initial_size)).map bumpDoubling :=
  ⟨rfl, c6_encode_growth.2.1 _ 0 128 rfl, rfl,
    c6_encode_growth.2.2.1 (encNeeds 300) 8 initial_size rfl⟩

/-- C7: when an event's condition is set, `check_condition` writes a
diagnostic that contains the event type name, the condition name and the
condition description, sets the exit code to 1 and closes the owning
connection; when it is not set, process state and connection are left
unchanged and nothing is written. -/
theorem c7_check (evtName : String) (cond : Cond) (st : ProcState) :
    (cond.isSet = true →
      (check_condition evtName cond st).1.exit_code = 1 ∧
      (check_condition evtName cond st).1.connClosed = true ∧
      (check_condition evtName cond st).2 = some (condDiagnostic evtName cond)) ∧
    (∃ q, condDiagnostic evtName cond = evtName ++ q) ∧
    (∃ p q, condDiagnostic evtName cond = p ++ (cond.name ++ q)) ∧
    (∃ p q, condDiagnostic evtName cond = p ++ (cond.descr ++ q)) ∧
    (cond.isSet = false → check_condition evtName cond st = (st, none)) := by
  refine ⟨fun h => ?_, ?_, ?_, ?_, fun h => ?_⟩
  · simp [check_condition, h]
  · exact ⟨": " ++ (cond.name ++ (": " ++ (cond.descr ++ "\n"))),
      by simp [condDiagnostic, String.append_assoc]⟩
  · exact ⟨evtName ++ ": ", ": " ++ (cond.descr ++ "\n"),
      by simp [condDiagnostic, String.append_assoc]⟩
  · exact ⟨evtName ++ ": " ++ cond.name ++ ": ", "\n",
      by simp [condDiagnostic, String.append_assoc]⟩
  · simp [check_condition, h]

/-- Witness for C7 on a condition named `amqp:not-found` with description
`no such address`: exit code becomes 1 and the connection is closed. -/
theorem c7_witness :
    (Cond.mk true "amqp:not-found" "no such address").isSet = true ∧
    (check_condition "PN_CONNECTION_REMOTE_CLOSE"
        (Cond.mk true "amqp:not-found" "no such address")
        (ProcState.mk 0 false)).1.exit_code = 1 ∧
    (check_condition "PN_CONNECTION_REMOTE_CLOSE"
        (Cond.mk true "amqp:not-found" "no such address")
        (ProcState.mk 0 false)).1.connClosed = true :=
  ⟨rfl,
    ((c7_check "PN_CONNECTION_REMOTE_CLOSE"
      (Cond.mk true "amqp:not-found" "no such address")
      (ProcState.mk 0 false)).1 rfl).1,
    ((c7_check "PN_CONNECTION_REMOTE_CLOSE"
      (Cond.mk true "amqp:not-found" "no such address")
      (ProcState.mk 0 false)).1 rfl).2.1⟩

/-- C8 counterexample: a complete delivery whose body fails to decode is
*not* dropped — the decode attempt produces no report, yet the handler
still accepts, advances and settles it and counts it as received. -/
theorem c8_counterexample :
    decode_message badDecodeDelivery = [] ∧
    (handle_receive_delivery 5 (initRecvState 1000) badDecodeDelivery).2
      = [RecvAction.accept, RecvAction.advance, RecvAction.settle] ∧
    (handle_receive_delivery 5 (initRecvState 1000) badDecodeDelivery).1.received
      = 1 := by
  decide

/-- C8 as amended: a delivery whose body fails to decode is processed like
any other complete delivery — it is accepted, advanced and settled — and
the decode failure is silently ignored (no body printed, no report);
processing continues with the next event. -/
theorem c8_amended_accepted_anyway (message_count : Nat) (st : RecvState)
    (d : Delivery) (h1 : d.readable = true) (h2 : d.incomplete = false)
    (h3 : d.decodeOk = false) :
    decode_message d = [] ∧
    (∃ rest, (handle_receive_delivery message_count st d).2
      = [RecvAction.accept, RecvAction.advance, RecvAction.settle] ++ rest) ∧
    RecvAction.printBody ∉ (handle_receive_delivery message_count st d).2 := by
  have hdec : decode_message d = [] := by
    simp [decode_message, h3]
  refine ⟨hdec, ?_, ?_⟩
  · obtain ⟨rest, hrest⟩ := step_accepts message_count st d h1 h2
    exact ⟨rest, by rw [hrest, hdec]; simp⟩
  · unfold handle_receive_delivery
    rw [if_pos ⟨h1, h2⟩]
    dsimp only
    split
    · rcases (maybe_replenish (st.credit - 1)).2 with _ | n
      · simp [hdec]
      · simp [hdec]
    · split
      · simp [hdec]
      · simp [hdec]

/-- Witness for the amended C8 on a concrete undecodable delivery. -/
theorem c8_amended_witness :
    badDecodeDelivery.readable = true ∧ badDecodeDelivery.incomplete = false ∧
    badDecodeDelivery.decodeOk = false ∧
    (decode_message badDecodeDelivery = [] ∧
      (∃ rest, (handle_receive_delivery 7 (initRecvState 500) badDecodeDelivery).2
        = [RecvAction.accept, RecvAction.advance, RecvAction.settle] ++ rest) ∧
      RecvAction.printBody
        ∉ (handle_receive_delivery 7 (initRecvState 500) badDecodeDelivery).2) :=
  ⟨rfl, rfl, rfl,
    c8_amended_accepted_anyway 7 (initRecvState 500) badDecodeDelivery rfl rfl rfl⟩

/-- The continue bit of `handle` is `false` exactly on
`PN_PROACTOR_INACTIVE`. -/
theorem handleContinue_false_iff (t : EvType) :
    handleContinue t = false ↔ t = EvType.proactorInactive := by
  cases t <;> simp [handleContinue]

/-- A batch with no inactive event is dispatched in full, in order. -/
theorem dispatchBatch_all (b : List EvType)
    (h : ∀ e ∈ b, e ≠ EvType.proactorInactive) :
    dispatchBatch b = (b.map TraceAct.dispatch, true) := by
  induction b with
  | nil => rfl
  | cons e es ih =>
    have he : handleContinue e = true := by
      rcases Bool.eq_false_or_eq_true (handleContinue e) with ht | hf
      · exact ht
      · exact absurd ((handleContinue_false_iff e).mp hf)
          (h e (List.mem_cons_self e es))
    have hes := ih (fun x hx => h x (List.mem_cons_of_mem e hx))
    simp [dispatchBatch, he, hes]

/-- A batch containing the inactive event is dispatched up to and
including it, and the batch is reported as stopped. -/
theorem dispatchBatch_stops (pre post : List EvType)
    (h : ∀ e ∈ pre, e ≠ EvType.proactorInactive) :
    dispatchBatch (pre ++ EvType.proactorInactive :: post)
      = (pre.map TraceAct.dispatch ++ [TraceAct.dispatch EvType.proactorInactive],
          false) := by
  induction pre with
  | nil => rfl
  | cons e es ih =>
    have he : handleContinue e = true := by
      rcases Bool.eq_false_or_eq_true (handleContinue e) with ht | hf
      · exact ht
      · exact absurd ((handleContinue_false_iff e).mp hf)
          (h e (List.mem_cons_self e es))
    have hes := ih (fun x hx => h x (List.mem_cons_of_mem e hx))
    simp [dispatchBatch, he, hes]

/-- With no inactive event, the loop waits, dispatches every event of each
batch in order, and acknowledges each batch before the next wait. -/
theorem runLoop_all (bs : List (List EvType))
    (h : ∀ b ∈ bs, ∀ e ∈ b, e ≠ EvType.proactorInactive) :
    runLoop bs = bs.flatMap
      (fun b => TraceAct.wait :: b.map TraceAct.dispatch ++ [TraceAct.batchDone]) := by
  induction bs with
  | nil => rfl
  | cons b bs ih =>
    have hb := dispatchBatch_all b (h b (List.mem_cons_self b bs))
    have hbs := ih (fun x hx => h x (List.mem_cons_of_mem b hx))
    simp [runLoop, hb, hbs]

/-- The loop ends exactly at the dispatch of the inactive event: nothing
of the stream is processed after it, and the final batch gets no
acknowledgement. -/
theorem runLoop_stops (bs rest : List (List EvType)) (pre post : List EvType)
    (hbs : ∀ b ∈ bs, ∀ e ∈ b, e ≠ EvType.proactorInactive)
    (hpre : ∀ e ∈ pre, e ≠ EvType.proactorInactive) :
    runLoop (bs ++ (pre ++ EvType.proactorInactive :: post) :: rest)
      = bs.flatMap
          (fun b => TraceAct.wait :: b.map TraceAct.dispatch ++ [TraceAct.batchDone])
        ++ TraceAct.wait :: pre.map TraceAct.dispatch
        ++ [TraceAct.dispatch EvType.proactorInactive] := by
  induction bs with
  | nil =>
    have hstop := dispatchBatch_stops pre post hpre
    simp [runLoop, hstop]
  | cons b bs ih =>
    have hb := dispatchBatch_all b (hbs b (List.mem_cons_self b bs))
    have hrest := ih (fun x hx => hbs x (List.mem_cons_of_mem b hx))
    simp [runLoop, hb, hrest]

/-- C9: `run` waits for each batch, dispatches its events in delivered
order, and acknowledges every completed batch with `pn_proactor_done`
before waiting again; it terminates exactly when a dispatched event
signals no more work, which happens exactly for `PN_PROACTOR_INACTIVE`
(the terminal batch, ended early, is not acknowledged). -/
theorem c9_run_loop :
    (∀ t, handleContinue t = false ↔ t = EvType.proactorInactive) ∧
    (∀ batches : List (List EvType),
      (∀ b ∈ batches, ∀ e ∈ b, e ≠ EvType.proactorInactive) →
      runLoop batches = batches.flatMap
        (fun b => TraceAct.wait :: b.map TraceAct.dispatch ++ [TraceAct.batchDone])) ∧
    (∀ (bs rest : List (List EvType)) (pre post : List EvType),
      (∀ b ∈ bs, ∀ e ∈ b, e ≠ EvType.proactorInactive) →
      (∀ e ∈ pre, e ≠ EvType.proactorInactive) →
      runLoop (bs ++ (pre ++ EvType.proactorInactive :: post) :: rest)
        = bs.flatMap
            (fun b => TraceAct.wait :: b.map TraceAct.dispatch ++ [TraceAct.batchDone])
          ++ TraceAct.wait :: pre.map TraceAct.dispatch
          ++ [TraceAct.dispatch EvType.proactorInactive]) :=
  ⟨handleContinue_false_iff, runLoop_all, runLoop_stops⟩

/-- Witness for C9: a two-batch stream whose second batch ends with the
inactive event produces the expected wait/dispatch/acknowledge trace. -/
theorem c9_witness :
    (∀ b ∈ [[EvType.connectionInit]], ∀ e ∈ b, e ≠ EvType.proactorInactive) ∧
    (∀ e ∈ [EvType.delivery], e ≠ EvType.proactorInactive) ∧
    runLoop [[EvType.connectionInit], [EvType.delivery, EvType.proactorInactive]]
      = [TraceAct.wait, TraceAct.dispatch EvType.connectionInit, TraceAct.batchDone,
          TraceAct.wait, TraceAct.dispatch EvType.delivery,
          TraceAct.dispatch EvType.proactorInactive] := by
  refine ⟨by decide, by decide, ?_⟩
  have h := c9_run_loop.2.2 [[EvType.connectionInit]] [] [EvType.delivery] []
    (by decide) (by decide)
  simpa using h

/-- With `message_count = 0` a delivery step only touches credit. -/
theorem step_unbounded_preserves (st : RecvState) (d : Delivery) :
    (handle_receive_delivery 0 st d).1.received = st.received ∧
    (handle_receive_delivery 0 st d).1.printed = st.printed ∧
    (handle_receive_delivery 0 st d).1.closedLink = st.closedLink ∧
    (handle_receive_delivery 0 st d).1.closedSsn = st.closedSsn ∧
    (handle_receive_delivery 0 st d).1.closedConn = st.closedConn := by
  unfold handle_receive_delivery
  dsimp only
  split
  · rw [if_pos rfl]
    exact ⟨rfl, rfl, rfl, rfl, rfl⟩
  · exact ⟨rfl, rfl, rfl, rfl, rfl⟩

/-- An unbounded run leaves counter, print log and endpoint flags
untouched. -/
theorem receiverRun_unbounded_preserves (ds : List Delivery) (st : RecvState) :
    (receiverRun 0 st ds).received = st.received ∧
    (receiverRun 0 st ds).printed = st.printed ∧
    (receiverRun 0 st ds).closedLink = st.closedLink ∧
    (receiverRun 0 st ds).closedSsn = st.closedSsn ∧
    (receiverRun 0 st ds).closedConn = st.closedConn := by
  induction ds generalizing st with
  | nil => exact ⟨rfl, rfl, rfl, rfl, rfl⟩
  | cons d ds ih =>
    rw [receiverRun]
    split
    · exact ih st
    · have hs := step_unbounded_preserves st d
      have hr := ih (handle_receive_delivery 0 st d).1
      exact ⟨hr.1.trans hs.1, hr.2.1.trans hs.2.1, hr.2.2.1.trans hs.2.2.1,
        hr.2.2.2.1.trans hs.2.2.2.1, hr.2.2.2.2.trans hs.2.2.2.2⟩

/-- C10: in unbounded mode (`message_count = 0`) the received counter is
never incremented by any stream of deliveries — it stays 0 — nothing is
printed, and the completion branch that closes link, session and
connection is unreachable. -/
theorem c10_unbounded_received_zero (c : Nat) (ds : List Delivery) :
    (receiverRun 0 (initRecvState c) ds).received = 0 ∧
    (receiverRun 0 (initRecvState c) ds).printed = [] ∧
    (receiverRun 0 (initRecvState c) ds).closedLink = false ∧
    (receiverRun 0 (initRecvState c) ds).closedSsn = false ∧
    (receiverRun 0 (initRecvState c) ds).closedConn = false :=
  receiverRun_unbounded_preserves ds (initRecvState c)

end Direct
